import Mathlib

/-!
Verification development for the clinic backend (`server.py`).

The file shallowly embeds the two claim-relevant parts of the source:

* the blob-backed document store endpoints (`get_patient_file`,
  `save_patient_file`, `create_patient`, `delete_patient`, `list_patients`),
  with the Google Cloud Storage bucket modelled as an association list from
  blob key to stored content; and
* the `/ws/transcriber` duplex protocol loop
  (`websocket_transcriber_endpoint`), with the external
  `TranscriberEngine` modelled from the spec by its observable operations
  (constructor, `add_audio`, `finish_consultation`, `stop`, and the
  `running` liveness flag).

Python `json.loads` (an external library) is modelled by a small executable
JSON parser over the character list of the frame text.
-/

/-! ## JSON values and a model of `json.loads` -/

/-- Model of a decoded Python JSON value (the result of `json.loads`).
Numbers are modelled as integers, which suffices for every claim. -/
inductive JsonVal where
  | null
  | bool (b : Bool)
  | num (n : Int)
  | str (s : String)
  | arr (elems : List JsonVal)
  | obj (fields : List (String × JsonVal))
deriving Repr

/-- Skip JSON whitespace. -/
def skipWs : List Char → List Char
  | [] => []
  | c :: cs =>
    if c = ' ' || c = '\n' || c = '\t' || c = '\r' then skipWs cs else c :: cs

/-- Minimal unescaping for string literals inside JSON text. -/
def unescapeChar (c : Char) : Char :=
  if c = 'n' then '\n' else if c = 't' then '\t' else if c = 'r' then '\r' else c

/-- Parse the body of a JSON string literal (after the opening quote),
returning the decoded characters and the rest of the input. -/
def parseStrChars : Nat → List Char → Option (List Char × List Char)
  | 0, _ => none
  | _, [] => none
  | fuel + 1, c :: cs =>
    if c = '"' then some ([], cs)
    else if c = '\\' then
      match cs with
      | [] => none
      | e :: cs2 =>
        match parseStrChars fuel cs2 with
        | some (s, rest) => some (unescapeChar e :: s, rest)
        | none => none
    else
      match parseStrChars fuel cs with
      | some (s, rest) => some (c :: s, rest)
      | none => none

/-- Take a run of leading decimal digits. -/
def takeDigits : List Char → List Char × List Char
  | [] => ([], [])
  | c :: cs =>
    if c.isDigit then
      let r := takeDigits cs
      (c :: r.1, r.2)
    else ([], c :: cs)

/-- Numeric value of a digit run. -/
def digitsToNat (ds : List Char) : Nat :=
  ds.foldl (fun acc c => acc * 10 + (c.toNat - 48)) 0

mutual

/-- Fuel-indexed recursive-descent parse of one JSON value. -/
def parseVal : Nat → List Char → Option (JsonVal × List Char)
  | 0, _ => none
  | fuel + 1, input =>
    match skipWs input with
    | [] => none
    | c :: cs =>
      if c = 'n' then
        match cs with
        | 'u' :: 'l' :: 'l' :: rest => some (.null, rest)
        | _ => none
      else if c = 't' then
        match cs with
        | 'r' :: 'u' :: 'e' :: rest => some (.bool true, rest)
        | _ => none
      else if c = 'f' then
        match cs with
        | 'a' :: 'l' :: 's' :: 'e' :: rest => some (.bool false, rest)
        | _ => none
      else if c = '"' then
        match parseStrChars (cs.length + 1) cs with
        | some (s, rest) => some (.str (String.mk s), rest)
        | none => none
      else if c = '-' then
        match takeDigits cs with
        | ([], _) => none
        | (ds, rest) => some (.num (-(digitsToNat ds : Int)), rest)
      else if c.isDigit then
        let r := takeDigits (c :: cs)
        some (.num (digitsToNat r.1), r.2)
      else if c = '[' then
        match skipWs cs with
        | ']' :: rest => some (.arr [], rest)
        | rest =>
          match parseElems fuel rest with
          | some (es, rest2) => some (.arr es, rest2)
          | none => none
      else if c = '\x7b' then
        match skipWs cs with
        | d :: rest =>
          if d = '\x7d' then some (.obj [], rest)
          else
            match parseFields fuel (d :: rest) with
            | some (fs, rest2) => some (.obj fs, rest2)
            | none => none
        | [] => none
      else none

/-- Parse the elements of a JSON array up to the closing bracket. -/
def parseElems : Nat → List Char → Option (List JsonVal × List Char)
  | 0, _ => none
  | fuel + 1, input =>
    match parseVal fuel input with
    | none => none
    | some (v, rest) =>
      match skipWs rest with
      | ',' :: rest2 =>
        match parseElems fuel rest2 with
        | some (es, rest3) => some (v :: es, rest3)
        | none => none
      | ']' :: rest2 => some ([v], rest2)
      | _ => none

/-- Parse the fields of a JSON object up to the closing brace. -/
def parseFields : Nat → List Char → Option (List (String × JsonVal) × List Char)
  | 0, _ => none
  | fuel + 1, input =>
    match skipWs input with
    | [] => none
    | c :: cs =>
      if c = '"' then
        match parseStrChars (cs.length + 1) cs with
        | none => none
        | some (k, rest) =>
          match skipWs rest with
          | ':' :: rest2 =>
            match parseVal fuel rest2 with
            | none => none
            | some (v, rest3) =>
              match skipWs rest3 with
              | ',' :: rest4 =>
                match parseFields fuel rest4 with
                | some (fs, rest5) => some ((String.mk k, v) :: fs, rest5)
                | none => none
              | d :: rest4 =>
                if d = '\x7d' then some ([(String.mk k, v)], rest4) else none
              | [] => none
          | _ => none
      else none

end

/-- Model of Python `json.loads`: parse one JSON value and require only
trailing whitespace, otherwise fail (`none` models `json.JSONDecodeError`). -/
def jsonParse (s : String) : Option JsonVal :=
  match parseVal (2 * s.data.length + 2) s.data with
  | some (v, rest) => if (skipWs rest).isEmpty then some v else none
  | none => none

/-- Model of Python `dict.get` on a decoded JSON object. -/
def dictGet (fields : List (String × JsonVal)) (k : String) : Option JsonVal :=
  match fields with
  | [] => none
  | f :: rest => if f.1 = k then some f.2 else dictGet rest k

/-- Model of the Python `str()` conversion used by f-string interpolation,
for the JSON values the endpoint interpolates into messages. -/
def jsonDisplay : JsonVal → String
  | .str s => s
  | .num n => toString n
  | .bool b => if b then "True" else "False"
  | .null => "None"
  | .arr _ => "<list>"
  | .obj _ => "<dict>"

/-! ## Blob store model and document endpoints

The Google Cloud Storage bucket `clinic_sim` is modelled as an association
list from blob key to stored content (content is a string, matching the
text-based upload path of `save_patient_file`). `blob.exists` is key lookup,
`upload_from_string` replaces any binding for the key,
`list_blobs(prefix=p)` filters keys by the prefix, and `delete_blobs`
removes every listed key. -/

/-- The bucket contents: blob key paired with stored content. -/
abbrev Store := List (String × String)

/-- Model of `blob.exists` / `download_as`: first binding for the key. -/
def storeGet : Store → String → Option String
  | [], _ => none
  | kv :: rest, k => if kv.1 = k then some kv.2 else storeGet rest k

/-- Model of `blob.upload_from_string`: create or overwrite the key. -/
def storePut (store : Store) (key content : String) : Store :=
  (key, content) :: store.filter (fun kv => !(kv.1 == key))

/-- The derived blob key `patient_profile/{pid}/{file_name}` used by the
file endpoints. -/
def blobPath (pid fileName : String) : String :=
  "patient_profile/" ++ pid ++ "/" ++ fileName

/-- Model of Python `str.lower` (character-wise lowering). -/
def lowerStr (s : String) : String :=
  String.mk (s.data.map Char.toLower)

/-- Model of Python `str.split(sep)` for a one-character separator. -/
def splitOnChar (sep : Char) (cs : List Char) : List (List Char) :=
  match cs with
  | [] => [[]]
  | d :: ds =>
    let r := splitOnChar sep ds
    if d = sep then [] :: r
    else
      match r with
      | [] => [[d]]
      | s :: rest => (d :: s) :: rest

/-- The extension computed by `file_name.lower().split('.')[-1]`. -/
def fileExt (fileName : String) : String :=
  String.mk ((splitOnChar '.' (lowerStr fileName).data).getLastD [])

/-- An HTTP response produced by the document endpoints: either a
`JSONResponse` with a status code and structured body, or a raw `Response`
with content and media type (status 200). -/
inductive HttpResponse where
  | jsonResponse (status : Nat) (body : JsonVal)
  | response (content : String) (mediaType : String)
deriving Repr

/-- Embedding of `get_patient_file` (server.py lines 217-260): fetch the
blob at the derived key; 404 if absent; otherwise dispatch on the file-name
extension. A parse failure of a `.json` blob raises inside the `try` block
and is caught by the generic `except Exception` handler, producing the 500
`JSONResponse`; the model returns that response at the raise point. -/
def get_patient_file (store : Store) (pid fileName : String) : HttpResponse :=
  let path := blobPath pid fileName
  match storeGet store path with
  | none =>
    .jsonResponse 404 (.obj [("error", .str "File not found"), ("path", .str path)])
  | some content =>
    let ext := fileExt fileName
    if ext = "json" then
      match jsonParse content with
      | some v => .jsonResponse 200 v
      | none => .jsonResponse 500 (.obj [("error", .str "JSON decode error")])
    else if ext = "md" ∨ ext = "txt" then
      .response content "text/markdown"
    else if ext = "png" ∨ ext = "jpg" ∨ ext = "jpeg" then
      .response content (if ext = "png" then "image/png" else "image/jpeg")
    else
      .response content "application/octet-stream"

/-- Embedding of `save_patient_file` (server.py lines 294-312): upload the
request content at the derived key, creating or overwriting. -/
def save_patient_file (store : Store) (pid fileName content : String) :
    Store × HttpResponse :=
  let path := blobPath pid fileName
  (storePut store path content,
   .jsonResponse 200
     (.obj [("message", .str "File saved successfully"), ("path", .str path)]))

/-- Strip a prefix from a character list; `some` exactly when the prefix
matches. Models membership in `list_blobs(prefix=p)`. -/
def stripPfxL : List Char → List Char → Option (List Char)
  | [], k => some k
  | _ :: _, [] => none
  | p :: ps, c :: cs => if p = c then stripPfxL ps cs else none

/-- Whether a blob key lies under a prefix (GCS `list_blobs(prefix=p)`
returns exactly the keys with `p` as a literal prefix). -/
def keyUnder (pfx key : String) : Bool :=
  (stripPfxL pfx.data key.data).isSome

/-- First path segment of a character list, `some` exactly when a slash is
present. Models the aggregation GCS performs for `delimiter="/"`: a key
`root ++ seg ++ "/" ++ t` contributes the prefix `root ++ seg ++ "/"`. -/
def firstSegL : List Char → Option (List Char)
  | [] => none
  | c :: cs => if c = '/' then some [] else (firstSegL cs).map (fun s => c :: s)

/-- The patient name a blob key contributes to `list_patients`: for a key
`patient_profile/{p}/...`, GCS delimiter listing yields the prefix
`patient_profile/{p}/`, and the endpoint keeps the last path component
(`p.rstrip('/').split('/')[-1]`), which is exactly `p`. -/
def patientOfKey (key : String) : Option String :=
  match stripPfxL ("patient_profile/").data key.data with
  | none => none
  | some rest => (firstSegL rest).map (fun cs => String.mk cs)

/-- Keep one occurrence of each string (GCS returns each prefix once). -/
def dedupStr : List String → List String
  | [] => []
  | s :: rest => if s ∈ rest then dedupStr rest else s :: dedupStr rest

/-- The patient names computed by `list_patients` (server.py lines
336-357): distinct first-level folder names under `patient_profile/`. -/
def patientNames (store : Store) : List String :=
  dedupStr (store.filterMap (fun kv => patientOfKey kv.1))

/-- Embedding of `list_patients`: the JSON response wrapping the folder
names. -/
def list_patients (store : Store) : HttpResponse :=
  .jsonResponse 200 (.obj [("patients", .arr ((patientNames store).map JsonVal.str))])

/-- Embedding of `create_patient` (server.py lines 362-381): check whether
the seed blob `patient_profile/{pid}/patient_info.md` exists; 400 if so;
otherwise upload the seed document. -/
def create_patient (store : Store) (pid : String) : Store × HttpResponse :=
  let path := "patient_profile/" ++ pid ++ "/patient_info.md"
  match storeGet store path with
  | some _ => (store, .jsonResponse 400 (.obj [("error", .str "Patient already exists")]))
  | none =>
    (storePut store path "# Patient Profile\nName: \nAge: ",
     .jsonResponse 200 (.obj [("message", .str "Patient created"), ("pid", .str pid)]))

/-- Embedding of `delete_patient` (server.py lines 383-399): list every
blob under `patient_profile/{pid}/`; 404 if none; otherwise bulk-delete
them all and report the count. -/
def delete_patient (store : Store) (pid : String) : Store × HttpResponse :=
  let pfx := "patient_profile/" ++ pid ++ "/"
  let blobs := store.filter (fun kv => keyUnder pfx kv.1)
  if blobs.isEmpty then
    (store, .jsonResponse 404 (.obj [("error", .str "Patient not found")]))
  else
    (store.filter (fun kv => !(keyUnder pfx kv.1)),
     .jsonResponse 200
       (.obj [("message",
               .str ("Deleted " ++ toString blobs.length ++ " files for patient " ++ pid))]))

/-! ## Transcriber session protocol

Embedding of `websocket_transcriber_endpoint` (server.py lines 89-176).
The external `TranscriberEngine` (module `transcriber_engine_new`, not part
of the provided sources) is modelled from the spec by its observable
operations; every engine instance ever constructed is kept in a ledger so
that statements about displaced instances remain expressible. The `id`
field models Python object identity; the protocol variable `engine` is
modelled by `engineRef`, the id of the instance it currently references. -/

/-- Modelled from the spec: the external Recognition Engine
(`TranscriberEngine`) with its observable state — a liveness flag
(`running`), the audio chunks handed to `add_audio`, and whether
`finish_consultation` (graceful drain) or `stop` (unconditional teardown)
has been invoked. -/
structure Engine where
  id : Nat
  patientId : JsonVal
  patientInfo : String
  running : Bool
  audioFed : List (List Nat)
  finished : Bool
  stopped : Bool
deriving Repr

/-- Modelled from the spec: constructing the engine and launching its
ingestion thread makes the session Active, so a fresh instance reports
itself live and has received no audio. -/
def mkEngine (id : Nat) (pid : JsonVal) (info : String) : Engine :=
  { id := id, patientId := pid, patientInfo := info, running := true,
    audioFed := [], finished := false, stopped := false }

/-- Modelled from the spec: `add_audio` enqueues one chunk for the
ingestion loop. -/
def addAudio (b : List Nat) (e : Engine) : Engine :=
  { e with audioFed := e.audioFed ++ [b] }

/-- Modelled from the spec: `finish_consultation` signals a graceful drain;
it is distinct from teardown and does not mark the engine stopped. -/
def finishConsultation (e : Engine) : Engine :=
  { e with finished := true }

/-- Modelled from the spec: `stop` is the unconditional teardown; it clears
the liveness flag. -/
def stopEngine (e : Engine) : Engine :=
  { e with running := false, stopped := true }

/-- A server-side log line (`logger.info` / `logger.warning` /
`logger.error`). Log lines are not sent to the client. -/
inductive LogEntry where
  | info (msg : String)
  | warn (msg : String)
  | error (msg : String)
deriving Repr

/-- State of one `/ws/transcriber` connection: the ledger of every engine
instance constructed so far, the id referenced by the `engine` variable,
the counter modelling fresh object identities, the JSON messages sent to
the client over the websocket, and the server-side log. -/
structure ConnState where
  engines : List Engine
  engineRef : Option Nat
  nextId : Nat
  sent : List JsonVal
  logs : List LogEntry
deriving Repr

/-- Connection state right after `websocket.accept()`: no engine. -/
def initConnState : ConnState :=
  { engines := [], engineRef := none, nextId := 0, sent := [], logs := [] }

/-- Look up an engine instance by identity in the ledger. -/
def findEngine : List Engine → Nat → Option Engine
  | [], _ => none
  | e :: rest, i => if e.id = i then some e else findEngine rest i

/-- The engine instance currently referenced by the `engine` variable. -/
def currentEngine (st : ConnState) : Option Engine :=
  match st.engineRef with
  | some i => findEngine st.engines i
  | none => none

/-- Apply a mutation to the engine instance with the given identity. -/
def updEngine (st : ConnState) (i : Nat) (f : Engine → Engine) : ConnState :=
  { st with engines := st.engines.map (fun e => if e.id = i then f e else e) }

/-- Append a log line. -/
def pushLog (l : LogEntry) (st : ConnState) : ConnState :=
  { st with logs := st.logs ++ [l] }

/-- One inbound websocket frame: a text frame or a binary (audio) frame.
Audio bytes are modelled as a list of byte values. -/
inductive Frame where
  | text (s : String)
  | bytes (b : List Nat)

/-- Outcome of one iteration of the receive loop: the loop continues with
the new state, or an exception escaped the loop body (`exn`). -/
inductive StepOut where
  | ok (st : ConnState)
  | exn (st : ConnState)

/-- The patient identifier extracted by `data.get("patient_id", "P0001")`:
the stored value when the key is present, the default otherwise. -/
def startPid (fields : List (String × JsonVal)) : JsonVal :=
  match dictGet fields "patient_id" with
  | some v => v
  | none => .str "P0001"

/-- One iteration of the `while True` receive loop (server.py lines
117-166), parameterised by the external seed-context collaborator
`fetch_gcs_text_internal` (module `utils`, not part of the provided
sources). A text frame is JSON-decoded: decode failure is logged and the
loop continues; a decoded object with `status == true` finishes the
referenced engine, or logs a warning when none exists; a decoded object
with `type == "start"` unconditionally constructs a fresh engine, rebinds
the `engine` variable to it, and sends the system acknowledgment; any
other object is ignored. A decoded non-object raises `AttributeError` at
`data.get`, which the inner `except json.JSONDecodeError` does not catch.
A binary frame is forwarded to `add_audio` iff the referenced engine
exists and reports itself running, and is dropped otherwise. -/
def stepFrame (fetchInfo : JsonVal → String) (st : ConnState) (f : Frame) : StepOut :=
  match f with
  | .text s =>
    match jsonParse s with
    | none => .ok (pushLog (.error "Received invalid JSON from frontend") st)
    | some (.obj fields) =>
      match dictGet fields "status" with
      | some (.bool true) =>
        match st.engineRef with
        | some i =>
          .ok (updEngine (pushLog (.info "Frontend requested End of Consultation.") st)
                 i finishConsultation)
        | none =>
          .ok (pushLog (.warn "Frontend sent stop signal, but engine is not running.")
                 (pushLog (.info "Frontend requested End of Consultation.") st))
      | _ =>
        match dictGet fields "type" with
        | some (.str t) =>
          if t = "start" then
            let pid := startPid fields
            let e := mkEngine st.nextId pid (fetchInfo pid)
            .ok { st with
                  engines := st.engines ++ [e],
                  engineRef := some st.nextId,
                  nextId := st.nextId + 1,
                  sent := st.sent ++
                    [JsonVal.obj
                      [("type", .str "system"),
                       ("message", .str ("Transcriber initialized for " ++ jsonDisplay pid))]],
                  logs := st.logs ++
                    [.info ("Starting Transcriber Engine for " ++ jsonDisplay pid)] }
          else .ok st
        | _ => .ok st
    | some _ => .exn st
  | .bytes b =>
    match st.engineRef with
    | none => .ok st
    | some i =>
      match findEngine st.engines i with
      | none => .ok st
      | some e => if e.running then .ok (updEngine st i (addAudio b)) else .ok st

/-- The receive loop over a finite inbound frame trace: after the last
frame the transport disconnects (`websocket.receive` raises
`WebSocketDisconnect`); an exception escaping an iteration also ends the
loop. The boolean records whether the loop ended by an in-loop exception
(true) or by disconnect (false). -/
def runLoop (fetchInfo : JsonVal → String) : ConnState → List Frame → ConnState × Bool
  | st, [] => (st, false)
  | st, f :: rest =>
    match stepFrame fetchInfo st f with
    | .ok st2 => runLoop fetchInfo st2 rest
    | .exn st2 => (st2, true)

/-- The `finally` block (server.py lines 173-176): if the `engine`
variable references an instance, invoke `stop` on that instance. -/
def finallyStop (st : ConnState) : ConnState :=
  match st.engineRef with
  | some i => updEngine (pushLog (.info "Stopping Transcriber Engine...") st) i stopEngine
  | none => st

/-- Embedding of the whole handler (server.py lines 109-176): run the
receive loop; both `except WebSocketDisconnect` and `except Exception`
swallow the termination cause and log it; the `finally` block invokes
`stop` on the engine referenced by the `engine` variable, if any. The
boolean result models whether an exception is re-raised to the transport
layer after cleanup: both handlers swallow, so it is always `false`. -/
def websocket_transcriber_endpoint (fetchInfo : JsonVal → String)
    (frames : List Frame) : ConnState × Bool :=
  let r := runLoop fetchInfo initConnState frames
  let st := if r.2
    then pushLog (.error "Transcriber WebSocket Error") r.1
    else pushLog (.info "Frontend disconnected from /ws/transcriber") r.1
  (finallyStop st, false)

/-- The start control frame used by concrete traces. -/
def startText : String := "\x7b\"type\": \"start\"\x7d"

/-- The explicit stop control frame used by concrete traces. -/
def stopText : String := "\x7b\"status\": true\x7d"

/-! ## Helper lemmas -/

/-- Reading back a key just written returns the written content. -/
theorem storeGet_storePut_self (store : Store) (k c : String) :
    storeGet (storePut store k c) k = some c := by
  simp [storePut, storeGet]

/-! ## Document store claims -/

/-- C8: `get_patient_file` fails with a 404 response naming the derived
key when no blob exists there; otherwise the response is dispatched by the
file-name extension: `json` is parsed and returned structured, `md` and
`txt` are returned as text, `png`/`jpg`/`jpeg` are returned with the
matching image content type, and any other extension is returned as opaque
bytes (`application/octet-stream`). -/
theorem get_file_dispatch (store : Store) (pid f : String) :
    (storeGet store (blobPath pid f) = none →
      get_patient_file store pid f =
        .jsonResponse 404
          (.obj [("error", .str "File not found"), ("path", .str (blobPath pid f))])) ∧
    (∀ c v, storeGet store (blobPath pid f) = some c → fileExt f = "json" →
      jsonParse c = some v → get_patient_file store pid f = .jsonResponse 200 v) ∧
    (∀ c, storeGet store (blobPath pid f) = some c →
      (fileExt f = "md" ∨ fileExt f = "txt") →
      get_patient_file store pid f = .response c "text/markdown") ∧
    (∀ c, storeGet store (blobPath pid f) = some c → fileExt f = "png" →
      get_patient_file store pid f = .response c "image/png") ∧
    (∀ c, storeGet store (blobPath pid f) = some c →
      (fileExt f = "jpg" ∨ fileExt f = "jpeg") →
      get_patient_file store pid f = .response c "image/jpeg") ∧
    (∀ c, storeGet store (blobPath pid f) = some c →
      fileExt f ∉ (["json", "md", "txt", "png", "jpg", "jpeg"] : List String) →
      get_patient_file store pid f = .response c "application/octet-stream") := by
  refine ⟨?_, ?_, ?_, ?_, ?_, ?_⟩
  · intro h
    simp [get_patient_file, h]
  · intro c v h hext hv
    simp [get_patient_file, h, hext, hv]
  · intro c h hext
    rcases hext with hext | hext <;> simp [get_patient_file, h, hext]
  · intro c h hext
    simp [get_patient_file, h, hext]
  · intro c h hext
    rcases hext with hext | hext <;> simp [get_patient_file, h, hext]
  · intro c h hext
    simp only [List.mem_cons, List.mem_singleton, not_or] at hext
    obtain ⟨h1, h2, h3, h4, h5, h6⟩ := hext
    simp [get_patient_file, h, h1, h2, h3, h4, h5, h6]

/-- Witness for C8: each dispatch case evaluated at a concrete store. -/
theorem get_file_dispatch_witness :
    (get_patient_file [] "p1" "a.md" =
      .jsonResponse 404
        (.obj [("error", .str "File not found"),
               ("path", .str "patient_profile/p1/a.md")])) ∧
    (get_patient_file [("patient_profile/p1/a.json", "[1, 2]")] "p1" "a.json" =
      .jsonResponse 200 (.arr [.num 1, .num 2])) ∧
    (get_patient_file [("patient_profile/p1/a.md", "hello")] "p1" "a.md" =
      .response "hello" "text/markdown") ∧
    (get_patient_file [("patient_profile/p1/a.txt", "hello")] "p1" "a.txt" =
      .response "hello" "text/markdown") ∧
    (get_patient_file [("patient_profile/p1/a.png", "IMG")] "p1" "a.png" =
      .response "IMG" "image/png") ∧
    (get_patient_file [("patient_profile/p1/a.jpg", "IMG")] "p1" "a.jpg" =
      .response "IMG" "image/jpeg") ∧
    (get_patient_file [("patient_profile/p1/a.bin", "BB")] "p1" "a.bin" =
      .response "BB" "application/octet-stream") := by
  refine ⟨?_, ?_, ?_, ?_, ?_, ?_, ?_⟩
  · exact (get_file_dispatch [] "p1" "a.md").1 (by rfl)
  · exact (get_file_dispatch _ "p1" "a.json").2.1 _ _ (by rfl) (by rfl) (by rfl)
  · exact (get_file_dispatch _ "p1" "a.md").2.2.1 _ (by rfl) (Or.inl (by rfl))
  · exact (get_file_dispatch _ "p1" "a.txt").2.2.1 _ (by rfl) (Or.inr (by rfl))
  · exact (get_file_dispatch _ "p1" "a.png").2.2.2.1 _ (by rfl) (by rfl)
  · exact (get_file_dispatch _ "p1" "a.jpg").2.2.2.2.1 _ (by rfl) (Or.inl (by rfl))
  · exact (get_file_dispatch _ "p1" "a.bin").2.2.2.2.2 _ (by rfl) (by decide)

/-- C7: document round trip. Saving `(pid, f, content)` and then fetching
`(pid, f)` returns the content unchanged with the media kind matching the
extension table: structured equality after decode for `.json` (the decoded
response equals the decode of the saved text), text equality for `.md`,
and byte-exact content with type `image/png` for `.png`. -/
theorem document_roundtrip (store : Store) (pid f content : String) :
    (fileExt f = "json" → ∀ v, jsonParse content = some v →
      get_patient_file (save_patient_file store pid f content).1 pid f =
        .jsonResponse 200 v) ∧
    (fileExt f = "md" →
      get_patient_file (save_patient_file store pid f content).1 pid f =
        .response content "text/markdown") ∧
    (fileExt f = "png" →
      get_patient_file (save_patient_file store pid f content).1 pid f =
        .response content "image/png") := by
  have hput : storeGet (save_patient_file store pid f content).1 (blobPath pid f) =
      some content := storeGet_storePut_self store (blobPath pid f) content
  refine ⟨?_, ?_, ?_⟩
  · intro hext v hv
    simp [get_patient_file, hput, hext, hv]
  · intro hext
    simp [get_patient_file, hput, hext]
  · intro hext
    simp [get_patient_file, hput, hext]

/-- Witness for C7: a concrete round trip for each of the three
extensions. -/
theorem document_roundtrip_witness :
    jsonParse "[1, 2]" = some (.arr [.num 1, .num 2]) ∧
    (get_patient_file (save_patient_file [] "p1" "d.json" "[1, 2]").1 "p1" "d.json" =
      .jsonResponse 200 (.arr [.num 1, .num 2])) ∧
    (get_patient_file (save_patient_file [] "p1" "d.md" "notes").1 "p1" "d.md" =
      .response "notes" "text/markdown") ∧
    (get_patient_file (save_patient_file [] "p1" "d.png" "PNGBYTES").1 "p1" "d.png" =
      .response "PNGBYTES" "image/png") :=
  ⟨rfl,
   (document_roundtrip [] "p1" "d.json" "[1, 2]").1 (by rfl) _ (by rfl),
   (document_roundtrip [] "p1" "d.md" "notes").2.1 (by rfl),
   (document_roundtrip [] "p1" "d.png" "PNGBYTES").2.2 (by rfl)⟩

/-- C10: for an existing blob whose file name ends in `.json` but whose
stored content is not valid JSON, `get_patient_file` returns the generic
500 error response rather than the stored content (the parse failure
escapes to the same `except Exception` handler that covers storage
unavailability). -/
theorem invalid_json_blob_500 (store : Store) (pid f c : String)
    (h : storeGet store (blobPath pid f) = some c) (hext : fileExt f = "json")
    (hv : jsonParse c = none) :
    get_patient_file store pid f =
      .jsonResponse 500 (.obj [("error", .str "JSON decode error")]) := by
  simp [get_patient_file, h, hext, hv]

/-- Witness for C10: a stored `.json` blob holding non-JSON text. -/
theorem invalid_json_blob_500_witness :
    jsonParse "oops" = none ∧
    get_patient_file [("patient_profile/p1/a.json", "oops")] "p1" "a.json" =
      .jsonResponse 500 (.obj [("error", .str "JSON decode error")]) :=
  ⟨rfl, invalid_json_blob_500 _ "p1" "a.json" "oops" rfl rfl rfl⟩

/-- C4 counterexample: a folder for patient `X` that already holds one
blob (`other.md`) — so the folder has at least one blob under its prefix —
on which `create_patient` nevertheless succeeds with the 200 response
instead of failing with 400 AlreadyExists. -/
theorem create_patient_nonempty_folder_cex :
    keyUnder "patient_profile/X/" "patient_profile/X/other.md" = true ∧
    (create_patient [("patient_profile/X/other.md", "notes")] "X").2 =
      .jsonResponse 200 (.obj [("message", .str "Patient created"), ("pid", .str "X")]) ∧
    (create_patient [("patient_profile/X/other.md", "notes")] "X").2 ≠
      .jsonResponse 400 (.obj [("error", .str "Patient already exists")]) := by
  refine ⟨rfl, rfl, ?_⟩
  intro h
  rw [show (create_patient [("patient_profile/X/other.md", "notes")] "X").2 =
      HttpResponse.jsonResponse 200
        (.obj [("message", .str "Patient created"), ("pid", .str "X")]) from rfl] at h
  simp at h

/-- C4 amended: `create_patient` fails with AlreadyExists (400) exactly
when the seed blob `patient_profile/{pid}/patient_info.md` itself already
exists — not when the folder has at least one blob under its prefix.
Otherwise it writes exactly one seed document and succeeds; in particular
the second of two successive calls with the same identifier fails with
AlreadyExists, because the first call wrote the seed blob. -/
theorem create_patient_seed_check (store : Store) (pid : String) :
    (∀ c, storeGet store ("patient_profile/" ++ pid ++ "/patient_info.md") = some c →
      create_patient store pid =
        (store, .jsonResponse 400 (.obj [("error", .str "Patient already exists")]))) ∧
    (storeGet store ("patient_profile/" ++ pid ++ "/patient_info.md") = none →
      create_patient store pid =
        (storePut store ("patient_profile/" ++ pid ++ "/patient_info.md")
           "# Patient Profile\nName: \nAge: ",
         .jsonResponse 200 (.obj [("message", .str "Patient created"), ("pid", .str pid)])) ∧
      (create_patient (create_patient store pid).1 pid).2 =
        .jsonResponse 400 (.obj [("error", .str "Patient already exists")])) := by
  constructor
  · intro c h
    simp [create_patient, h]
  · intro h
    constructor
    · simp [create_patient, h]
    · simp [create_patient, h, storeGet_storePut_self]

/-- Witness for C4: creating patient `X` in an empty bucket succeeds, and
creating `X` again fails with AlreadyExists. -/
theorem create_patient_seed_check_witness :
    storeGet ([] : Store) "patient_profile/X/patient_info.md" = none ∧
    (create_patient (create_patient [] "X").1 "X").2 =
      .jsonResponse 400 (.obj [("error", .str "Patient already exists")]) :=
  ⟨rfl, ((create_patient_seed_check [] "X").2 rfl).2⟩

/-- Stripping a literal prefix from a prefixed list succeeds with the
remainder. -/
theorem stripPfxL_append : ∀ (p t : List Char), stripPfxL p (p ++ t) = some t
  | [], _ => rfl
  | c :: cs, t => by simp [stripPfxL, stripPfxL_append cs t]

/-- A successful prefix strip decomposes the key. -/
theorem stripPfxL_some_imp : ∀ (p k r : List Char), stripPfxL p k = some r → k = p ++ r
  | [], k, r, h => by simpa [stripPfxL] using h
  | _ :: _, [], r, h => by simp [stripPfxL] at h
  | c :: cs, d :: ds, r, h => by
    simp only [stripPfxL] at h
    by_cases hcd : c = d
    · subst hcd
      rw [if_pos rfl] at h
      have := stripPfxL_some_imp cs ds r h
      simp [this]
    · rw [if_neg hcd] at h
      exact absurd h (by simp)

/-- A successful first-segment extraction decomposes the list at the first
slash. -/
theorem firstSegL_some_imp : ∀ (r s : List Char), firstSegL r = some s → ∃ t, r = s ++ '/' :: t
  | [], s, h => by simp [firstSegL] at h
  | c :: cs, s, h => by
    simp only [firstSegL] at h
    by_cases hc : c = '/'
    · subst hc
      rw [if_pos rfl] at h
      obtain rfl : ([] : List Char) = s := by simpa using h
      exact ⟨cs, rfl⟩
    · rw [if_neg hc] at h
      rw [Option.map_eq_some'] at h
      obtain ⟨s2, hs2, rfl⟩ := h
      obtain ⟨t, ht⟩ := firstSegL_some_imp cs s2 hs2
      exact ⟨t, by simp [ht]⟩

/-- A key that contributes patient name `pid` to the folder listing lies
under the per-patient prefix `patient_profile/{pid}/`. -/
theorem patientOfKey_keyUnder (key pid : String) (h : patientOfKey key = some pid) :
    keyUnder ("patient_profile/" ++ pid ++ "/") key = true := by
  unfold patientOfKey at h
  cases hstrip : stripPfxL ("patient_profile/").data key.data with
  | none => rw [hstrip] at h; exact absurd h (by simp)
  | some rest =>
    rw [hstrip] at h
    simp only [Option.map_eq_some'] at h
    obtain ⟨cs, hseg, hmk⟩ := h
    obtain ⟨t, ht⟩ := firstSegL_some_imp rest cs hseg
    have hkey : key.data = ("patient_profile/").data ++ rest := stripPfxL_some_imp _ _ _ hstrip
    have hpid : pid.data = cs := by rw [← hmk]
    unfold keyUnder
    have hdata : ("patient_profile/" ++ pid ++ "/").data =
        ("patient_profile/").data ++ (cs ++ ['/']) := by
      simp [String.data_append, hpid]
    rw [hdata, hkey, ht]
    have hassoc : ("patient_profile/").data ++ (cs ++ '/' :: t) =
        (("patient_profile/").data ++ (cs ++ ['/'])) ++ t := by simp
    rw [hassoc, stripPfxL_append]
    rfl

/-- Deduplication preserves membership. -/
theorem mem_dedupStr (a : String) : ∀ l : List String, a ∈ dedupStr l ↔ a ∈ l
  | [] => Iff.rfl
  | s :: rest => by
    simp only [dedupStr]
    by_cases hs : s ∈ rest
    · rw [if_pos hs, mem_dedupStr a rest]
      constructor
      · intro h
        exact List.mem_cons_of_mem _ h
      · intro h
        rcases List.mem_cons.mp h with rfl | h2
        · exact hs
        · exact h2
    · rw [if_neg hs]
      simp [List.mem_cons, mem_dedupStr a rest]

/-- C9: `delete_patient` fails with 404 NotFound when the per-patient
prefix holds zero blobs; otherwise it deletes every blob under the prefix
in one bulk operation, succeeds reporting the count deleted, and the
patient no longer appears in the folder names computed by
`list_patients`. -/
theorem delete_patient_folder (store : Store) (pid : String) :
    ((store.filter (fun kv => keyUnder ("patient_profile/" ++ pid ++ "/") kv.1)).isEmpty = true →
      delete_patient store pid =
        (store, .jsonResponse 404 (.obj [("error", .str "Patient not found")]))) ∧
    ((store.filter (fun kv => keyUnder ("patient_profile/" ++ pid ++ "/") kv.1)).isEmpty = false →
      (delete_patient store pid).1 =
        store.filter (fun kv => !(keyUnder ("patient_profile/" ++ pid ++ "/") kv.1)) ∧
      (delete_patient store pid).2 =
        .jsonResponse 200
          (.obj [("message",
            .str ("Deleted " ++
              toString (store.filter
                (fun kv => keyUnder ("patient_profile/" ++ pid ++ "/") kv.1)).length ++
              " files for patient " ++ pid))]) ∧
      pid ∉ patientNames (delete_patient store pid).1) := by
  constructor
  · intro h
    simp only [delete_patient]
    rw [if_pos h]
  · intro h
    have hif : ¬((store.filter
        (fun kv => keyUnder ("patient_profile/" ++ pid ++ "/") kv.1)).isEmpty = true) := by
      simp [h]
    have hdel1 : (delete_patient store pid).1 =
        store.filter (fun kv => !(keyUnder ("patient_profile/" ++ pid ++ "/") kv.1)) := by
      simp only [delete_patient]
      rw [if_neg hif]
    refine ⟨hdel1, ?_, ?_⟩
    · simp only [delete_patient]
      rw [if_neg hif]
    · rw [hdel1]
      intro hmem
      rw [patientNames, mem_dedupStr, List.mem_filterMap] at hmem
      obtain ⟨kv, hkv, hpk⟩ := hmem
      rw [List.mem_filter] at hkv
      have hku := patientOfKey_keyUnder kv.1 pid hpk
      have hneg := hkv.2
      rw [hku] at hneg
      simp at hneg

/-- A concrete bucket with three blobs for patient `Z` and one for `W`. -/
def storeZW : Store :=
  [("patient_profile/Z/a.md", "1"), ("patient_profile/Z/b.md", "2"),
   ("patient_profile/Z/c.md", "3"), ("patient_profile/W/a.md", "4")]

/-- Witness for C9: deleting absent patient `Y` gives 404; deleting `Z`
(three blobs) succeeds with the count and the listing excludes `Z`. -/
theorem delete_patient_folder_witness :
    delete_patient storeZW "Y" =
      (storeZW, .jsonResponse 404 (.obj [("error", .str "Patient not found")])) ∧
    (delete_patient storeZW "Z").2 =
      .jsonResponse 200 (.obj [("message", .str "Deleted 3 files for patient Z")]) ∧
    "Z" ∉ patientNames (delete_patient storeZW "Z").1 ∧
    patientNames (delete_patient storeZW "Z").1 = ["W"] :=
  ⟨(delete_patient_folder storeZW "Y").1 (by rfl),
   ((delete_patient_folder storeZW "Z").2 (by rfl)).2.1,
   ((delete_patient_folder storeZW "Z").2 (by rfl)).2.2,
   rfl⟩

/-! ## Transcriber protocol claims -/

/-- The connection state after one successful start frame: engine 0 is
constructed, referenced, and live. Used to instantiate witnesses. -/
def activeState : ConnState := (runLoop (fun _ => "") initConnState [Frame.text startText]).1

/-- Updating one engine by identity acts on the ledger lookup as mapping
the mutation over the found instance, when the mutation preserves
identity. -/
theorem findEngine_map_upd (es : List Engine) (i : Nat) (f : Engine → Engine)
    (hf : ∀ e, (f e).id = e.id) :
    findEngine (es.map fun e => if e.id = i then f e else e) i = (findEngine es i).map f := by
  induction es with
  | nil => rfl
  | cons e rest ih =>
    simp only [List.map_cons, findEngine]
    by_cases he : e.id = i
    · rw [if_pos he]
      simp [findEngine, hf e, he]
    · rw [if_neg he]
      simp [findEngine, he, ih]

/-- After the `finally` block, the engine referenced by the session (if
any) is stopped. -/
theorem currentEngine_finallyStop (st : ConnState) (e : Engine)
    (h : currentEngine (finallyStop st) = some e) : e.stopped = true := by
  unfold finallyStop at h
  cases href : st.engineRef with
  | none =>
    rw [href] at h
    unfold currentEngine at h
    rw [href] at h
    exact absurd h (by simp)
  | some i =>
    rw [href] at h
    simp only [currentEngine, updEngine, pushLog, href] at h
    rw [findEngine_map_upd st.engines i stopEngine (fun _ => rfl)] at h
    rw [Option.map_eq_some'] at h
    obtain ⟨e0, _, he0⟩ := h
    rw [← he0]
    rfl

/-- C1 counterexample: on the concrete trace start, start, audio — where
the session is Active when the second start arrives — the second start is
not a no-op: two engine instances exist (ledger length 2, both
constructed, the first never stopped), the session handle has moved to the
new instance (id 1), and the subsequent audio frame is fed to the new
instance while the original instance (id 0) receives none. -/
theorem single_engine_invariant_cex :
    (runLoop (fun _ => "") initConnState
      [Frame.text startText, Frame.text startText, Frame.bytes [7]]).1.engines.length = 2 ∧
    (runLoop (fun _ => "") initConnState
      [Frame.text startText, Frame.text startText, Frame.bytes [7]]).1.engineRef = some 1 ∧
    findEngine (runLoop (fun _ => "") initConnState
      [Frame.text startText, Frame.text startText, Frame.bytes [7]]).1.engines 0 =
      some (mkEngine 0 (.str "P0001") "") ∧
    findEngine (runLoop (fun _ => "") initConnState
      [Frame.text startText, Frame.text startText, Frame.bytes [7]]).1.engines 1 =
      some (addAudio [7] (mkEngine 1 (.str "P0001") "")) :=
  ⟨rfl, rfl, rfl, rfl⟩

/-- C1 amended: a `start` control message is handled unconditionally —
also while a session is already Active. The endpoint constructs a fresh
Recognition Engine instance (identity `st.nextId`), appends it to the
ledger leaving every existing instance untouched and un-stopped, rebinds
the session handle to the new instance (so subsequent audio goes to the
new instance, not the original), and sends the system acknowledgment. -/
theorem start_replaces_engine (fetchInfo : JsonVal → String) (st : ConnState) (s : String)
    (fields : List (String × JsonVal))
    (hparse : jsonParse s = some (.obj fields))
    (hstatus : dictGet fields "status" ≠ some (.bool true))
    (htype : dictGet fields "type" = some (.str "start")) :
    stepFrame fetchInfo st (.text s) = .ok { st with
      engines := st.engines ++ [mkEngine st.nextId (startPid fields) (fetchInfo (startPid fields))],
      engineRef := some st.nextId,
      nextId := st.nextId + 1,
      sent := st.sent ++
        [JsonVal.obj
          [("type", .str "system"),
           ("message", .str ("Transcriber initialized for " ++ jsonDisplay (startPid fields)))]],
      logs := st.logs ++
        [.info ("Starting Transcriber Engine for " ++ jsonDisplay (startPid fields))] } := by
  simp only [stepFrame, hparse]
  cases hsv : dictGet fields "status" with
  | none => simp [htype]
  | some v =>
    cases v with
    | bool b =>
      cases b with
      | true => exact absurd hsv hstatus
      | false => simp [htype]
    | null => simp [htype]
    | num n => simp [htype]
    | str s2 => simp [htype]
    | arr es => simp [htype]
    | obj fs => simp [htype]

/-- Witness for C1 (amended): the second start applied to the Active
state constructs engine 1 and rebinds the handle to it. -/
theorem start_replaces_engine_witness :
    jsonParse startText = some (JsonVal.obj [("type", JsonVal.str "start")]) ∧
    activeState.engineRef = some 0 ∧
    stepFrame (fun _ => "") activeState (Frame.text startText) =
      .ok { activeState with
            engines := activeState.engines ++
              [mkEngine 1 (startPid [("type", JsonVal.str "start")]) ""],
            engineRef := some 1,
            nextId := 2,
            sent := activeState.sent ++
              [JsonVal.obj [("type", JsonVal.str "system"),
                ("message", JsonVal.str ("Transcriber initialized for " ++
                  jsonDisplay (startPid [("type", JsonVal.str "start")])))]],
            logs := activeState.logs ++
              [.info ("Starting Transcriber Engine for " ++
                jsonDisplay (startPid [("type", JsonVal.str "start")]))] } :=
  ⟨rfl, rfl,
   start_replaces_engine (fun _ => "") activeState startText [("type", JsonVal.str "start")]
     rfl (by simp [dictGet]) rfl⟩

/-- C2: a binary frame is forwarded to the engine `add_audio` operation
exactly when an engine exists and its liveness flag reports it running;
in every other case — including every audio frame received before any
start control frame — the frame is dropped silently, with no state change,
no buffering, and no error. -/
theorem audio_forwarding (fetchInfo : JsonVal → String) (st : ConnState) (b : List Nat) :
    (∀ i e, st.engineRef = some i → findEngine st.engines i = some e → e.running = true →
      stepFrame fetchInfo st (.bytes b) = .ok (updEngine st i (addAudio b))) ∧
    (∀ i e, st.engineRef = some i → findEngine st.engines i = some e → e.running = false →
      stepFrame fetchInfo st (.bytes b) = .ok st) ∧
    (st.engineRef = none → stepFrame fetchInfo st (.bytes b) = .ok st) ∧
    (∀ bs : List (List Nat),
      runLoop fetchInfo initConnState (bs.map Frame.bytes) = (initConnState, false)) := by
  refine ⟨?_, ?_, ?_, ?_⟩
  · intro i e hi he hr
    simp [stepFrame, hi, he, hr]
  · intro i e hi he hr
    simp [stepFrame, hi, he, hr]
  · intro h
    simp [stepFrame, h]
  · intro bs
    induction bs with
    | nil => rfl
    | cons b2 rest ih =>
      simp only [List.map_cons, runLoop]
      rw [show stepFrame fetchInfo initConnState (.bytes b2) = .ok initConnState from rfl]
      exact ih

/-- Witness for C2: audio is fed to the live engine of the Active state,
and a trace of audio frames before any start leaves the initial state
unchanged. -/
theorem audio_forwarding_witness :
    activeState.engineRef = some 0 ∧
    findEngine activeState.engines 0 = some (mkEngine 0 (.str "P0001") "") ∧
    (mkEngine 0 (.str "P0001") "").running = true ∧
    stepFrame (fun _ => "") activeState (Frame.bytes [5]) =
      .ok (updEngine activeState 0 (addAudio [5])) ∧
    runLoop (fun _ => "") initConnState ([[1], [2]].map Frame.bytes) = (initConnState, false) :=
  ⟨rfl, rfl, rfl,
   (audio_forwarding (fun _ => "") activeState [5]).1 0 (mkEngine 0 (.str "P0001") "") rfl rfl rfl,
   (audio_forwarding (fun _ => "") initConnState [5]).2.2.2 [[1], [2]]⟩

/-- C3 counterexample: on the concrete trace with two starts, the engine
started first (id 0) is still in the ledger un-stopped when the endpoint
terminates — teardown `stop` was invoked only on the displacing instance
(id 1). So "if an engine was started then stop() is invoked on it" fails
for displaced engines. -/
theorem teardown_skips_displaced_engine_cex :
    findEngine (websocket_transcriber_endpoint (fun _ => "")
      [Frame.text startText, Frame.text startText]).1.engines 0 =
      some (mkEngine 0 (.str "P0001") "") ∧
    (mkEngine 0 (.str "P0001") "").stopped = false ∧
    findEngine (websocket_transcriber_endpoint (fun _ => "")
      [Frame.text startText, Frame.text startText]).1.engines 1 =
      some (stopEngine (mkEngine 1 (.str "P0001") "")) :=
  ⟨rfl, rfl, rfl⟩

/-- C3 amended: for every termination of the protocol loop — transport
disconnect or an unhandled exception inside the loop — no exception is
re-raised to the transport layer after cleanup, and the teardown `stop`
has been invoked on the engine instance the session currently references,
if any (an engine displaced by a second start is not the referenced one
and is not stopped). -/
theorem transcriber_teardown (fetchInfo : JsonVal → String) (frames : List Frame) :
    (websocket_transcriber_endpoint fetchInfo frames).2 = false ∧
    ∀ e, currentEngine (websocket_transcriber_endpoint fetchInfo frames).1 = some e →
      e.stopped = true := by
  refine ⟨rfl, ?_⟩
  intro e he
  simp only [websocket_transcriber_endpoint] at he
  exact currentEngine_finallyStop _ e he

/-- Witness for C3 (amended): after a start-only trace, the endpoint
result carries no re-raised exception and the referenced engine is
stopped. -/
theorem transcriber_teardown_witness :
    (websocket_transcriber_endpoint (fun _ => "") [Frame.text startText]).2 = false ∧
    currentEngine (websocket_transcriber_endpoint (fun _ => "") [Frame.text startText]).1 =
      some (stopEngine (mkEngine 0 (.str "P0001") "")) ∧
    (stopEngine (mkEngine 0 (.str "P0001") "")).stopped = true :=
  ⟨(transcriber_teardown (fun _ => "") [Frame.text startText]).1, rfl,
   (transcriber_teardown (fun _ => "") [Frame.text startText]).2 _ rfl⟩

/-- C5 counterexample: a stop control frame with no session running sends
nothing to the client — `sent` stays empty; the warning exists only as a
server-side log entry. This refutes "emits a warning control message to
the client". -/
theorem stop_no_engine_no_client_message_cex :
    (runLoop (fun _ => "") initConnState [Frame.text stopText]).1.sent = [] ∧
    (runLoop (fun _ => "") initConnState [Frame.text stopText]).1.logs =
      [LogEntry.info "Frontend requested End of Consultation.",
       LogEntry.warn "Frontend sent stop signal, but engine is not running."] ∧
    (runLoop (fun _ => "") initConnState [Frame.text stopText]).1.engines = [] :=
  ⟨rfl, rfl, rfl⟩

/-- C5 amended: on a decoded control frame with `status == true`, if no
engine has been started the protocol logs a server-side warning and takes
no other action (in particular it sends no control message to the client
and touches no engine); if an engine exists — in particular an Active
session — it invokes the graceful `finish_consultation` on it, which is
not the unconditional teardown: it leaves `stopped` and `running`
unchanged and only marks the engine finishing. -/
theorem stop_signal_behavior (fetchInfo : JsonVal → String) (st : ConnState) (s : String)
    (fields : List (String × JsonVal))
    (hparse : jsonParse s = some (.obj fields))
    (hstatus : dictGet fields "status" = some (.bool true)) :
    (st.engineRef = none →
      stepFrame fetchInfo st (.text s) =
        .ok (pushLog (.warn "Frontend sent stop signal, but engine is not running.")
              (pushLog (.info "Frontend requested End of Consultation.") st))) ∧
    (∀ i, st.engineRef = some i →
      stepFrame fetchInfo st (.text s) =
        .ok (updEngine (pushLog (.info "Frontend requested End of Consultation.") st)
              i finishConsultation)) ∧
    (∀ e : Engine, (finishConsultation e).stopped = e.stopped ∧
      (finishConsultation e).running = e.running ∧ (finishConsultation e).finished = true) ∧
    (∀ l st0, (pushLog l st0).sent = st0.sent ∧ (pushLog l st0).engines = st0.engines) := by
  refine ⟨?_, ?_, ?_, ?_⟩
  · intro h
    simp [stepFrame, hparse, hstatus, h]
  · intro i h
    simp [stepFrame, hparse, hstatus, h]
  · intro e
    exact ⟨rfl, rfl, rfl⟩
  · intro l st0
    exact ⟨rfl, rfl⟩

/-- Witness for C5 (amended): the concrete stop frame at the initial
state (warning logged, nothing else) and at the Active state (graceful
finish on engine 0). -/
theorem stop_signal_behavior_witness :
    jsonParse stopText = some (JsonVal.obj [("status", JsonVal.bool true)]) ∧
    stepFrame (fun _ => "") initConnState (Frame.text stopText) =
      .ok (pushLog (.warn "Frontend sent stop signal, but engine is not running.")
            (pushLog (.info "Frontend requested End of Consultation.") initConnState)) ∧
    stepFrame (fun _ => "") activeState (Frame.text stopText) =
      .ok (updEngine (pushLog (.info "Frontend requested End of Consultation.") activeState)
            0 finishConsultation) :=
  ⟨rfl,
   (stop_signal_behavior (fun _ => "") initConnState stopText
     [("status", JsonVal.bool true)] rfl rfl).1 rfl,
   (stop_signal_behavior (fun _ => "") activeState stopText
     [("status", JsonVal.bool true)] rfl rfl).2.1 0 rfl⟩

/-- C6: a text frame whose body fails to parse as JSON is logged and
discarded without touching session state: the step only appends the error
log; the current engine is unchanged; and a subsequent valid audio frame
is still forwarded to a previously live engine. -/
theorem malformed_json_ignored (fetchInfo : JsonVal → String) (st : ConnState) (s : String)
    (hparse : jsonParse s = none) :
    stepFrame fetchInfo st (.text s) =
      .ok (pushLog (.error "Received invalid JSON from frontend") st) ∧
    currentEngine (pushLog (.error "Received invalid JSON from frontend") st) =
      currentEngine st ∧
    (∀ i e b, st.engineRef = some i → findEngine st.engines i = some e → e.running = true →
      stepFrame fetchInfo (pushLog (.error "Received invalid JSON from frontend") st)
          (.bytes b) =
        .ok (updEngine (pushLog (.error "Received invalid JSON from frontend") st)
              i (addAudio b))) := by
  refine ⟨?_, rfl, ?_⟩
  · simp [stepFrame, hparse]
  · intro i e b hi he hr
    simp [stepFrame, pushLog, hi, he, hr, updEngine]

/-- Witness for C6: the truncated control frame from the spec example,
received in the Active state, is logged and discarded, and the next audio
frame is still fed to engine 0. -/
theorem malformed_json_ignored_witness :
    jsonParse "\x7b\"type\":" = none ∧
    stepFrame (fun _ => "") activeState (Frame.text "\x7b\"type\":") =
      .ok (pushLog (.error "Received invalid JSON from frontend") activeState) ∧
    stepFrame (fun _ => "")
        (pushLog (.error "Received invalid JSON from frontend") activeState)
        (Frame.bytes [9]) =
      .ok (updEngine (pushLog (.error "Received invalid JSON from frontend") activeState)
            0 (addAudio [9])) :=
  ⟨rfl,
   (malformed_json_ignored (fun _ => "") activeState "\x7b\"type\":" rfl).1,
   (malformed_json_ignored (fun _ => "") activeState "\x7b\"type\":" rfl).2.2
     0 (mkEngine 0 (.str "P0001") "") [9] rfl rfl rfl⟩
